import Mathlib

/-!
Shallow embedding of the JobLess interview backend
(`backend/services/session_manager.py`, `backend/services/evaluation_pipeline.py`,
`backend/agents/evaluator_agent.py`, `backend/api/websocket/interview_ws.py`,
`backend/api/routes/interviews.py`) and proofs of the spec claims about it.

Conventions of the embedding:
* Python `time.time()` is modelled by an explicit `now : Nat` argument.
* The in-memory session dict is an association list `List (String × InterviewSession)`;
  keys are unique per construction in the code (`uuid4`), but no theorem relies on that.
* Remote agent calls and `json.loads` are modelled as oracles (explicit arguments),
  since their behaviour is external to the repository.
* Firestore persistence is omitted: `firestore_service` swallows every exception and
  never touches the in-memory state, so it has no effect on any claimed property.
-/

namespace JobLess

/-- `InterviewPhase` enum from `models/schemas.py`. -/
inductive InterviewPhase where
  | greeting
  | questions
  | closing
  | complete
deriving DecidableEq, Repr

/-- `InterviewStatus` enum from `models/schemas.py`. -/
inductive InterviewStatus where
  | created
  | in_progress
  | completed
  | evaluating
  | evaluated
  | failed
deriving DecidableEq, Repr

/-- `.value` of an `InterviewStatus` member (the str-enum payload). -/
def InterviewStatus.value : InterviewStatus → String
  | .created => "created"
  | .in_progress => "in_progress"
  | .completed => "completed"
  | .evaluating => "evaluating"
  | .evaluated => "evaluated"
  | .failed => "failed"

/-- `InterviewPhase(s)` constructor of the str enum: matches a member by value,
raises `ValueError` (here: `none`) otherwise. -/
def InterviewPhase.ofString : String → Option InterviewPhase
  | "greeting" => some .greeting
  | "questions" => some .questions
  | "closing" => some .closing
  | "complete" => some .complete
  | _ => none

/-- `QuestionType` enum from `models/schemas.py`. -/
inductive QuestionType where
  | behavioral
  | technical
  | situational
  | system_design
  | product
deriving DecidableEq, Repr

/-- `Question` model from `models/schemas.py`. -/
structure Question where
  id : String
  company : String
  position : String
  type : QuestionType
  difficulty : String
  question : String
  follow_ups : List String
  evaluation_criteria : List String
  tags : List String
deriving DecidableEq, Repr

/-- `InterviewConfig` model from `models/schemas.py`. -/
structure InterviewConfig where
  candidate_name : String
  company : String
  position : String
  question_types : List QuestionType
  question_count : Nat
  job_description : Option String
  resume_session_id : Option String
deriving DecidableEq, Repr

/-- `TranscriptEntry` model from `models/schemas.py`. -/
structure TranscriptEntry where
  role : String
  text : String
  question_id : Option String
  timestamp : Option Nat
deriving DecidableEq, Repr

/-- `InterviewSession` model from `models/schemas.py`. -/
structure InterviewSession where
  session_id : String
  config : InterviewConfig
  status : InterviewStatus
  phase : InterviewPhase
  current_question_index : Nat
  questions : List Question
  transcript : List TranscriptEntry
  jd_summary : Option String
  created_at : Option Nat
  completed_at : Option Nat
deriving DecidableEq, Repr

/-- Python truthiness of an `Optional[str]`: `None` and `""` are falsy. -/
def truthyOptStr : Option String → Bool
  | none => false
  | some s => s ≠ ""

/-- The record shape produced by `get_transcript_for_evaluation`. -/
structure QARecord where
  question : String
  question_id : String
  answer : String
  evaluation_criteria : List String
deriving DecidableEq, Repr

/-- A stage result dict, as inspected by the pipeline (`result.get("status")`,
`result.get("message", 'Unknown')`). -/
structure AgentResponse where
  status : String
  message : Option String
deriving DecidableEq, Repr

/-- `SessionManager` state: the in-memory session dict plus the lazily created
`_feedback_store` dict. -/
structure SessionManager where
  sessions : List (String × InterviewSession)
  feedback_store : List (String × AgentResponse)
deriving DecidableEq, Repr

namespace SessionManager

/-- In-place mutation of the session object bound to `sid` in the dict. -/
def updateSession (sessions : List (String × InterviewSession)) (sid : String)
    (f : InterviewSession → InterviewSession) : List (String × InterviewSession) :=
  sessions.map (fun p => if p.1 = sid then (p.1, f p.2) else p)

/-- `SessionManager.get_session`: `self._sessions.get(session_id)`. -/
def get_session (mgr : SessionManager) (sid : String) : Option InterviewSession :=
  mgr.sessions.lookup sid

/-- `SessionManager.update_phase` (`session_manager.py` lines 116-127). -/
def update_phase (mgr : SessionManager) (sid : String) (phase : InterviewPhase)
    (now : Nat) : Bool × SessionManager :=
  match mgr.get_session sid with
  | none => (false, mgr)
  | some _ =>
    let f : InterviewSession → InterviewSession := fun s =>
      let s1 := { s with phase := phase }
      if phase = .complete then
        { s1 with status := .completed, completed_at := some now }
      else if phase = .questions then
        { s1 with status := .in_progress }
      else s1
    (true, { mgr with sessions := updateSession mgr.sessions sid f })

/-- `SessionManager.update_status` (`session_manager.py` lines 129-135). -/
def update_status (mgr : SessionManager) (sid : String) (status : InterviewStatus) :
    Bool × SessionManager :=
  match mgr.get_session sid with
  | none => (false, mgr)
  | some _ =>
    (true, { mgr with
      sessions := updateSession mgr.sessions sid (fun s => { s with status := status }) })

/-- `SessionManager.add_transcript_entry` (`session_manager.py` lines 137-150). -/
def add_transcript_entry (mgr : SessionManager) (sid : String) (role text : String)
    (question_id : Option String) (now : Nat) : Bool × SessionManager :=
  match mgr.get_session sid with
  | none => (false, mgr)
  | some _ =>
    (true, { mgr with
      sessions := updateSession mgr.sessions sid (fun s =>
        { s with transcript := s.transcript ++
            [{ role := role, text := text, question_id := question_id,
               timestamp := some now }] }) })

/-- `SessionManager.get_next_question` (`session_manager.py` lines 152-161). -/
def get_next_question (mgr : SessionManager) (sid : String) :
    Option Question × SessionManager :=
  match mgr.get_session sid with
  | none => (none, mgr)
  | some s =>
    if h : s.current_question_index < s.questions.length then
      (some (s.questions.get ⟨s.current_question_index, h⟩),
       { mgr with
         sessions := updateSession mgr.sessions sid (fun s =>
           { s with current_question_index := s.current_question_index + 1 }) })
    else
      (none, mgr)

/-- `SessionManager.store_feedback` (`session_manager.py` lines 208-217):
stores the feedback dict and sets the session status to `EVALUATED`. -/
def store_feedback (mgr : SessionManager) (sid : String) (feedback : AgentResponse) :
    Bool × SessionManager :=
  match mgr.get_session sid with
  | none => (false, mgr)
  | some _ =>
    (true, { mgr with
      sessions := updateSession mgr.sessions sid (fun s =>
        { s with status := .evaluated }),
      feedback_store := (sid, feedback) :: mgr.feedback_store })

end SessionManager

section LookupLemmas

theorem lookup_updateSession_self (l : List (String × InterviewSession)) (sid : String)
    (f : InterviewSession → InterviewSession) :
    (SessionManager.updateSession l sid f).lookup sid = (l.lookup sid).map f := by
  induction l with
  | nil => rfl
  | cons p rest ih =>
    obtain ⟨k, v⟩ := p
    simp only [SessionManager.updateSession, List.map] at *
    by_cases hk : k = sid
    · subst hk
      rw [if_pos rfl]
      simp [List.lookup]
    · rw [if_neg (by simpa using hk)]
      have hbeq : (sid == k) = false := by
        simpa using fun h => hk h.symm
      simp only [List.lookup, hbeq]
      exact ih

theorem lookup_updateSession_ne (l : List (String × InterviewSession)) (sid k : String)
    (f : InterviewSession → InterviewSession) (hne : k ≠ sid) :
    (SessionManager.updateSession l sid f).lookup k = l.lookup k := by
  induction l with
  | nil => rfl
  | cons p rest ih =>
    obtain ⟨k', v⟩ := p
    simp only [SessionManager.updateSession, List.map] at *
    by_cases hk : k' = sid
    · subst hk
      rw [if_pos rfl]
      have hbeq : (k == k') = false := by simpa using hne
      simp only [List.lookup, hbeq]
      exact ih
    · rw [if_neg (by simpa using hk)]
      by_cases hkk : k = k'
      · subst hkk
        simp [List.lookup]
      · have hbeq : (k == k') = false := by simpa using hkk
        simp only [List.lookup, hbeq]
        exact ih

end LookupLemmas

section Fixtures

/-- A concrete question used by witnesses. -/
def sampleQuestion (qid qtext : String) : Question :=
  { id := qid, company := "Grab", position := "SWE", type := .behavioral,
    difficulty := "medium", question := qtext, follow_ups := [],
    evaluation_criteria := [], tags := [] }

/-- A concrete config used by witnesses. -/
def sampleConfig : InterviewConfig :=
  { candidate_name := "Ali", company := "Grab", position := "SWE",
    question_types := [.behavioral], question_count := 5,
    job_description := none, resume_session_id := none }

/-- A concrete session used by witnesses. -/
def sampleSession (status : InterviewStatus) (questions : List Question)
    (transcript : List TranscriptEntry) : InterviewSession :=
  { session_id := "s1", config := sampleConfig, status := status,
    phase := .greeting, current_question_index := 0, questions := questions,
    transcript := transcript, jd_summary := none, created_at := some 0,
    completed_at := none }

/-- A concrete one-session manager used by witnesses. -/
def sampleMgr (status : InterviewStatus) (questions : List Question)
    (transcript : List TranscriptEntry) : SessionManager :=
  { sessions := [("s1", sampleSession status questions transcript)],
    feedback_store := [] }

end Fixtures

section NextQuestionSequence

/-- The manager state after `k` successive `get_next_question(sid)` calls. -/
def runNextCalls (mgr : SessionManager) (sid : String) : Nat → SessionManager
  | 0 => mgr
  | k + 1 => ((runNextCalls mgr sid k).get_next_question sid).2

/-- The value returned by the `(k+1)`-th successive `get_next_question(sid)` call. -/
def nthNextCall (mgr : SessionManager) (sid : String) (k : Nat) : Option Question :=
  ((runNextCalls mgr sid k).get_next_question sid).1

theorem get_next_question_lt (mgr : SessionManager) (sid : String)
    (s : InterviewSession) (h : mgr.get_session sid = some s)
    (hlt : s.current_question_index < s.questions.length) :
    mgr.get_next_question sid =
      (s.questions[s.current_question_index]?,
       { mgr with sessions := SessionManager.updateSession mgr.sessions sid (fun t =>
           { t with current_question_index := t.current_question_index + 1 }) }) := by
  unfold SessionManager.get_next_question
  rw [h]
  dsimp only
  rw [dif_pos hlt, List.getElem?_eq_getElem hlt]
  rfl

theorem get_next_question_ge (mgr : SessionManager) (sid : String)
    (s : InterviewSession) (h : mgr.get_session sid = some s)
    (hge : s.questions.length ≤ s.current_question_index) :
    mgr.get_next_question sid = (none, mgr) := by
  unfold SessionManager.get_next_question
  rw [h]
  dsimp only
  rw [dif_neg (by omega)]

theorem runNextCalls_get_session (mgr : SessionManager) (sid : String)
    (s : InterviewSession) (h : mgr.get_session sid = some s)
    (h0 : s.current_question_index = 0) (k : Nat) :
    ∃ s', (runNextCalls mgr sid k).get_session sid = some s' ∧
      s'.current_question_index = min k s.questions.length ∧
      s'.questions = s.questions := by
  induction k with
  | zero =>
    exact ⟨s, h, by omega, rfl⟩
  | succ k ih =>
    obtain ⟨s', hs', hidx, hqs⟩ := ih
    by_cases hk : k < s.questions.length
    · have hlt : s'.current_question_index < s'.questions.length := by
        rw [hidx, hqs]; omega
      refine ⟨{ s' with current_question_index := s'.current_question_index + 1 },
        ?_, by simpa [hidx] using by omega, by simpa using hqs⟩
      rw [runNextCalls, get_next_question_lt _ _ _ hs' hlt]
      simp only [SessionManager.get_session] at hs' ⊢
      rw [lookup_updateSession_self, hs']
      rfl
    · have hge : s'.questions.length ≤ s'.current_question_index := by
        rw [hidx, hqs]; omega
      refine ⟨s', ?_, by omega, hqs⟩
      rw [runNextCalls, get_next_question_ge _ _ _ hs' hge]
      exact hs'

/-- C3: from a fresh cursor, `get_next_question` returns the questions in list
order, one per call; once the cursor reaches the list length every further call
returns `none` and leaves the manager state (hence the cursor) unchanged; with
an empty question list the very first call returns `none`. -/
theorem get_next_question_sequence (mgr : SessionManager) (sid : String)
    (s : InterviewSession) (h : mgr.get_session sid = some s)
    (h0 : s.current_question_index = 0) :
    (∀ k q, s.questions[k]? = some q → nthNextCall mgr sid k = some q) ∧
    (∀ k, s.questions.length ≤ k → nthNextCall mgr sid k = none ∧
        runNextCalls mgr sid (k + 1) = runNextCalls mgr sid k) ∧
    (s.questions = [] → nthNextCall mgr sid 0 = none) := by
  have main := runNextCalls_get_session mgr sid s h h0
  refine ⟨?_, ?_, ?_⟩
  · intro k q hq
    obtain ⟨s', hs', hidx, hqs⟩ := main k
    have hk : k < s.questions.length := by
      rcases List.getElem?_eq_some.mp hq with ⟨hk, _⟩
      exact hk
    have hlt : s'.current_question_index < s'.questions.length := by
      rw [hidx, hqs]; omega
    rw [nthNextCall, get_next_question_lt _ _ _ hs' hlt]
    have : s'.current_question_index = k := by omega
    rw [this] at hlt ⊢
    rw [hqs] at hlt ⊢
    exact hq
  · intro k hk
    obtain ⟨s', hs', hidx, hqs⟩ := main k
    have hge : s'.questions.length ≤ s'.current_question_index := by
      rw [hidx, hqs]; omega
    constructor
    · rw [nthNextCall, get_next_question_ge _ _ _ hs' hge]
    · rw [runNextCalls, get_next_question_ge _ _ _ hs' hge]
  · intro hnil
    obtain ⟨s', hs', hidx, hqs⟩ := main 0
    have hge : s'.questions.length ≤ s'.current_question_index := by
      rw [hidx, hqs, hnil]; simp
    rw [nthNextCall, get_next_question_ge _ _ _ hs' hge]

/-- Witness for C3 on a concrete two-question session. -/
theorem get_next_question_sequence_witness :
    nthNextCall (sampleMgr .created [sampleQuestion "q1" "Tell me", sampleQuestion "q2" "Why us"] []) "s1" 0
      = some (sampleQuestion "q1" "Tell me") ∧
    nthNextCall (sampleMgr .created [sampleQuestion "q1" "Tell me", sampleQuestion "q2" "Why us"] []) "s1" 1
      = some (sampleQuestion "q2" "Why us") ∧
    nthNextCall (sampleMgr .created [sampleQuestion "q1" "Tell me", sampleQuestion "q2" "Why us"] []) "s1" 2
      = none := by
  have h := get_next_question_sequence
    (sampleMgr .created [sampleQuestion "q1" "Tell me", sampleQuestion "q2" "Why us"] []) "s1"
    (sampleSession .created [sampleQuestion "q1" "Tell me", sampleQuestion "q2" "Why us"] [])
    rfl rfl
  exact ⟨h.1 0 _ rfl, h.1 1 _ rfl, (h.2.1 2 (by simp [sampleSession])).1⟩

end NextQuestionSequence

section PhaseTransitions

/-- C4: for an existing session, `update_phase` always stores the requested
phase; `questions` forces status `in_progress`; `complete` forces status
`completed` and stamps `completed_at`; `greeting` and `closing` leave status
and `completed_at` unchanged. -/
theorem update_phase_spec (mgr : SessionManager) (sid : String) (s : InterviewSession)
    (h : mgr.get_session sid = some s) (phase : InterviewPhase) (now : Nat) :
    (mgr.update_phase sid phase now).1 = true ∧
    ∃ s', ((mgr.update_phase sid phase now).2).get_session sid = some s' ∧
      s'.phase = phase ∧
      (phase = .questions → s'.status = .in_progress) ∧
      (phase = .complete → s'.status = .completed ∧ s'.completed_at = some now) ∧
      ((phase = .greeting ∨ phase = .closing) →
        s'.status = s.status ∧ s'.completed_at = s.completed_at) := by
  have hmain : ((mgr.update_phase sid phase now).2).get_session sid = some (
      let s1 := { s with phase := phase }
      if phase = .complete then { s1 with status := .completed, completed_at := some now }
      else if phase = .questions then { s1 with status := .in_progress } else s1) ∧
      (mgr.update_phase sid phase now).1 = true := by
    unfold SessionManager.update_phase
    rw [h]
    dsimp only
    constructor
    · simp only [SessionManager.get_session] at h ⊢
      rw [lookup_updateSession_self, h]
      rfl
    · rfl
  refine ⟨hmain.2, _, hmain.1, ?_, ?_, ?_, ?_⟩ <;> cases phase <;> simp

/-- Witness for C4: completing a concrete session stores the phase, forces
status `completed` and stamps the completion time. -/
theorem update_phase_spec_witness :
    ((sampleMgr .in_progress [] []).update_phase "s1" .complete 42).1 = true ∧
    ∃ s', (((sampleMgr .in_progress [] []).update_phase "s1" .complete 42).2).get_session "s1"
        = some s' ∧ s'.phase = .complete ∧
      (InterviewPhase.complete = .questions → s'.status = .in_progress) ∧
      (InterviewPhase.complete = .complete → s'.status = .completed ∧ s'.completed_at = some 42) ∧
      ((InterviewPhase.complete = .greeting ∨ InterviewPhase.complete = .closing) →
        s'.status = (sampleSession .in_progress [] []).status ∧
        s'.completed_at = (sampleSession .in_progress [] []).completed_at) := by
  have h := update_phase_spec (sampleMgr .in_progress [] []) "s1"
    (sampleSession .in_progress [] []) rfl .complete 42
  obtain ⟨h1, s', h2, h3, h4, h5, h6⟩ := h
  exact ⟨h1, s', h2, h3, h4, h5, h6⟩

end PhaseTransitions

section MissingSession

/-- C10: every mutating session-manager operation on a session id that is not
in the store returns its failure value and leaves the whole manager state
unchanged. -/
theorem missing_session_noop (mgr : SessionManager) (sid : String)
    (h : mgr.get_session sid = none) (phase : InterviewPhase)
    (status : InterviewStatus) (role text : String) (qid : Option String)
    (now : Nat) (fb : AgentResponse) :
    mgr.update_phase sid phase now = (false, mgr) ∧
    mgr.update_status sid status = (false, mgr) ∧
    mgr.add_transcript_entry sid role text qid now = (false, mgr) ∧
    mgr.get_next_question sid = (none, mgr) ∧
    mgr.store_feedback sid fb = (false, mgr) := by
  unfold SessionManager.update_phase SessionManager.update_status
    SessionManager.add_transcript_entry SessionManager.get_next_question
    SessionManager.store_feedback
  rw [h]
  exact ⟨rfl, rfl, rfl, rfl, rfl⟩

/-- Witness for C10 on the empty store. -/
theorem missing_session_noop_witness :
    (SessionManager.mk [] []).update_phase "nope" .complete 7
      = (false, SessionManager.mk [] []) ∧
    (SessionManager.mk [] []).update_status "nope" .evaluating
      = (false, SessionManager.mk [] []) ∧
    (SessionManager.mk [] []).add_transcript_entry "nope" "candidate" "hi" none 7
      = (false, SessionManager.mk [] []) ∧
    (SessionManager.mk [] []).get_next_question "nope"
      = (none, SessionManager.mk [] []) ∧
    (SessionManager.mk [] []).store_feedback "nope" ⟨"success", none⟩
      = (false, SessionManager.mk [] []) :=
  missing_session_noop (SessionManager.mk [] []) "nope" rfl .complete .evaluating
    "candidate" "hi" none 7 ⟨"success", none⟩

end MissingSession

section TranscriptGrouping

/-- The loop guard `entry.role == "interviewer" and entry.question_id`
(`session_manager.py` line 175), with Python truthiness of the optional id. -/
def isQuestionEntry (e : TranscriptEntry) : Bool :=
  e.role = "interviewer" && truthyOptStr e.question_id

/-- `evaluation_criteria` of the question with matching id in the session's
question list (`next((q for q in session.questions if q.id == ...), None)`),
empty when no match. -/
def criteriaFor (questions : List Question) (qid : String) : List String :=
  match questions.find? (fun q => q.id == qid) with
  | some q => q.evaluation_criteria
  | none => []

/-- Appending the pending Q&A pair to `result`
(`session_manager.py` lines 177-187 and 194-204). -/
def flushQA (questions : List Question) (cur : Option (String × String))
    (parts : List String) (acc : List QARecord) : List QARecord :=
  match cur with
  | none => acc
  | some (text, qid) =>
    acc ++ [{ question := text, question_id := qid,
              answer := String.intercalate " " parts,
              evaluation_criteria := criteriaFor questions qid }]

/-- The `for entry in session.transcript` loop of
`get_transcript_for_evaluation` (`session_manager.py` lines 174-206), with
loop state `(current_question, current_answer_parts, result)`. -/
def gteLoop (questions : List Question) :
    List TranscriptEntry → Option (String × String) → List String → List QARecord →
    List QARecord
  | [], cur, parts, acc => flushQA questions cur parts acc
  | e :: rest, cur, parts, acc =>
    if isQuestionEntry e then
      gteLoop questions rest (some (e.text, e.question_id.getD "")) []
        (flushQA questions cur parts acc)
    else if e.role = "candidate" then
      gteLoop questions rest cur (parts ++ [e.text]) acc
    else
      gteLoop questions rest cur parts acc

/-- `SessionManager.get_transcript_for_evaluation` applied to a session. -/
def InterviewSession.transcriptForEvaluation (s : InterviewSession) : List QARecord :=
  gteLoop s.questions s.transcript none [] []

/-- `SessionManager.get_transcript_for_evaluation`
(`session_manager.py` lines 163-206): a read-only operation on the store. -/
def SessionManager.get_transcript_for_evaluation (mgr : SessionManager)
    (sid : String) : Option (List QARecord) × SessionManager :=
  match mgr.get_session sid with
  | none => (none, mgr)
  | some s => (some s.transcriptForEvaluation, mgr)

/-- Reference grouping, written from the spec's words: the candidate texts
following a question entry, up to (excluding) the next question-bearing
interviewer entry. -/
def answerParts : List TranscriptEntry → List String
  | [] => []
  | e :: rest =>
    if isQuestionEntry e then []
    else if e.role = "candidate" then e.text :: answerParts rest
    else answerParts rest

/-- Reference grouping: skip to the next question-bearing interviewer entry. -/
def dropToQuestion : List TranscriptEntry → List TranscriptEntry
  | [] => []
  | e :: rest => if isQuestionEntry e then e :: rest else dropToQuestion rest

theorem dropToQuestion_length_le (l : List TranscriptEntry) :
    (dropToQuestion l).length ≤ l.length := by
  induction l with
  | nil => simp [dropToQuestion]
  | cons e rest ih =>
    rw [dropToQuestion]
    by_cases h : isQuestionEntry e
    · simp [h]
    · simp only [h, if_false, Bool.false_eq_true]
      exact Nat.le_succ_of_le ih

/-- Reference grouping, written from the spec's words: every interviewer entry
carrying a question id starts a new QA record whose question text is that
entry's text and whose answer is the space-join of the candidate entries before
the next question-bearing interviewer entry; candidate entries before the first
question-bearing interviewer entry produce no record; criteria come from the
question with matching id (empty list if no match). -/
def refGrouping (questions : List Question) : List TranscriptEntry → List QARecord
  | [] => []
  | e :: rest =>
    if isQuestionEntry e then
      { question := e.text, question_id := e.question_id.getD "",
        answer := String.intercalate " " (answerParts rest),
        evaluation_criteria := criteriaFor questions (e.question_id.getD "") }
        :: refGrouping questions (dropToQuestion rest)
    else refGrouping questions rest
termination_by l => l.length
decreasing_by
  · simpa using Nat.lt_succ_of_le (dropToQuestion_length_le rest)
  · simp

theorem gteLoop_eq_refGrouping (questions : List Question)
    (entries : List TranscriptEntry) :
    (∀ parts acc, gteLoop questions entries none parts acc
        = acc ++ refGrouping questions entries) ∧
    (∀ text qid parts acc, gteLoop questions entries (some (text, qid)) parts acc
        = acc ++ ({ question := text, question_id := qid,
                    answer := String.intercalate " " (parts ++ answerParts entries),
                    evaluation_criteria := criteriaFor questions qid }
            :: refGrouping questions (dropToQuestion entries))) := by
  induction entries with
  | nil =>
    constructor
    · intro parts acc
      simp [gteLoop, flushQA, refGrouping]
    · intro text qid parts acc
      simp [gteLoop, flushQA, refGrouping, answerParts, dropToQuestion]
  | cons e rest ih =>
    constructor
    · intro parts acc
      by_cases hq : isQuestionEntry e
      · rw [gteLoop, if_pos hq, flushQA, ih.2, refGrouping, if_pos hq]
        simp
      · by_cases hc : e.role = "candidate"
        · rw [gteLoop, if_neg hq, if_pos hc, ih.1, refGrouping, if_neg hq]
        · rw [gteLoop, if_neg hq, if_neg hc, ih.1, refGrouping, if_neg hq]
    · intro text qid parts acc
      by_cases hq : isQuestionEntry e
      · rw [gteLoop, if_pos hq, ih.2, flushQA, answerParts, if_pos hq,
          dropToQuestion, if_pos hq, refGrouping, if_pos hq]
        simp
      · by_cases hc : e.role = "candidate"
        · rw [gteLoop, if_neg hq, if_pos hc, ih.2, answerParts, if_neg hq, if_pos hc,
            dropToQuestion, if_neg hq]
          simp
        · rw [gteLoop, if_neg hq, if_neg hc, ih.2, answerParts, if_neg hq, if_neg hc,
            dropToQuestion, if_neg hq]

/-- C2: the transcript-to-QA derivation equals the reference grouping for every
session, and on the claim's concrete transcript it yields exactly
`[{qid 1, answer "a b"}, {qid 2, answer "c"}]`. -/
theorem transcript_for_evaluation_correct :
    (∀ s : InterviewSession,
      s.transcriptForEvaluation = refGrouping s.questions s.transcript) ∧
    (sampleSession .completed
        [sampleQuestion "1" "Q1", sampleQuestion "2" "Q2"]
        [⟨"interviewer", "Q1", some "1", none⟩, ⟨"candidate", "a", none, none⟩,
         ⟨"candidate", "b", none, none⟩, ⟨"interviewer", "Q2", some "2", none⟩,
         ⟨"candidate", "c", none, none⟩]).transcriptForEvaluation
      = [{ question := "Q1", question_id := "1", answer := "a b",
           evaluation_criteria := [] },
         { question := "Q2", question_id := "2", answer := "c",
           evaluation_criteria := [] }] := by
  constructor
  · intro s
    rw [InterviewSession.transcriptForEvaluation,
      (gteLoop_eq_refGrouping s.questions s.transcript).1]
    rfl
  · rfl

end TranscriptGrouping

section TranscriptPurity

/-- C8: the transcript assembler is pure and idempotent: it returns the store
unchanged, and a second call on the resulting store returns the same QA
records. -/
theorem transcript_for_evaluation_pure_idempotent (mgr : SessionManager)
    (sid : String) :
    (mgr.get_transcript_for_evaluation sid).2 = mgr ∧
    (((mgr.get_transcript_for_evaluation sid).2).get_transcript_for_evaluation sid).1
      = (mgr.get_transcript_for_evaluation sid).1 := by
  have h2 : (mgr.get_transcript_for_evaluation sid).2 = mgr := by
    unfold SessionManager.get_transcript_for_evaluation
    cases mgr.get_session sid <;> rfl
  exact ⟨h2, by rw [h2]⟩

end TranscriptPurity

section EvaluationPipeline

/-- Outcome of an awaited external agent call: a returned result dict, or a
raised exception (caught by the pipeline's `except` block). -/
inductive Call (α : Type) where
  | returns (value : α)
  | raises (exn : String)
deriving DecidableEq, Repr

/-- The dict returned by `run_evaluation`: an `{"status": "error", ...}` dict,
or the successful feedback result. -/
inductive PipeResult where
  | err (message : String)
  | ok (feedback : AgentResponse)
deriving DecidableEq, Repr

/-- `run_evaluation` (`evaluation_pipeline.py` lines 22-98). The evaluator and
feedback agent calls are oracles; Firestore persistence is omitted (it swallows
all exceptions and never touches the in-memory state). -/
def run_evaluation (mgr : SessionManager) (sid : String)
    (evalCall fbCall : Call AgentResponse) : PipeResult × SessionManager :=
  match mgr.get_session sid with
  | none => (.err "Session not found", mgr)
  | some session =>
    if session.status ≠ .completed ∧ session.status ≠ .evaluating then
      (.err ("Session is " ++ session.status.value ++ ", not completed"), mgr)
    else
      let mgr1 := (mgr.update_status sid .evaluating).2
      match (mgr1.get_transcript_for_evaluation sid).1 with
      | none => (.err "No transcript data found", mgr1)
      | some td =>
        if td.isEmpty then (.err "No transcript data found", mgr1)
        else
          match evalCall with
          | .raises e =>
            (.err ("Pipeline error: " ++ e), (mgr1.update_status sid .completed).2)
          | .returns er =>
            if er.status ≠ "success" then
              (.err ("Evaluation failed: " ++ er.message.getD "Unknown"),
               (mgr1.update_status sid .completed).2)
            else
              match fbCall with
              | .raises e =>
                (.err ("Pipeline error: " ++ e), (mgr1.update_status sid .completed).2)
              | .returns fr =>
                if fr.status ≠ "success" then
                  (.err ("Feedback generation failed: " ++ fr.message.getD "Unknown"),
                   (mgr1.update_status sid .completed).2)
                else
                  (.ok fr, (mgr1.store_feedback sid fr).2)

/-- The `EvaluateResponse` payload returned on acceptance by
`POST /{session_id}/evaluate`. -/
structure EvaluateAccepted where
  session_id : String
  status : String
  message : String
deriving DecidableEq, Repr

/-- `evaluate_interview` (`api/routes/interviews.py` lines 70-90):
`Except.error (code, detail)` models `HTTPException`; the pipeline background
task is scheduled only on the `.ok` branch. -/
def evaluate_interview (mgr : SessionManager) (sid : String) :
    Except (Nat × String) EvaluateAccepted :=
  match mgr.get_session sid with
  | none => .error (404, "Session not found")
  | some session =>
    if session.status ≠ .completed then
      .error (400, "Interview is " ++ session.status.value ++
        ", must be completed to evaluate")
    else
      .ok { session_id := sid, status := "evaluating",
            message := "Evaluation started. Poll status endpoint for progress." }

theorem update_status_get_session (mgr : SessionManager) (sid : String)
    (s : InterviewSession) (h : mgr.get_session sid = some s)
    (st : InterviewStatus) :
    ((mgr.update_status sid st).2).get_session sid = some { s with status := st } := by
  unfold SessionManager.update_status
  rw [h]
  dsimp only
  simp only [SessionManager.get_session] at h ⊢
  rw [lookup_updateSession_self, h]
  rfl

/-- Counterexample to C1: on a `completed` session whose transcript is empty,
`run_evaluation` sets status to `evaluating`, then returns an error result with
the status still `evaluating` — it is not reverted to `completed` on this
failure path. -/
theorem run_evaluation_empty_transcript_counterexample :
    (run_evaluation (sampleMgr .completed [] []) "s1"
        (.returns ⟨"success", none⟩) (.returns ⟨"success", none⟩)).1
      = .err "No transcript data found" ∧
    ((run_evaluation (sampleMgr .completed [] []) "s1"
        (.returns ⟨"success", none⟩) (.returns ⟨"success", none⟩)).2).get_session "s1"
      = some { sampleSession .completed [] [] with status := .evaluating } ∧
    InterviewStatus.evaluating ≠ InterviewStatus.completed :=
  ⟨rfl, rfl, by decide⟩

/-- C1 (amended): when the derived transcript is nonempty, every failure path
of `run_evaluation` (evaluator failure incl. retry exhaustion, feedback
failure, raised exception) reverts the session status to `completed`; but on a
missing/empty transcript the pipeline returns an error with the status left at
`evaluating` (re-entry remains possible only because `evaluating` satisfies the
pipeline's own precondition). -/
theorem run_evaluation_error_reverts (mgr : SessionManager) (sid : String)
    (s : InterviewSession) (h : mgr.get_session sid = some s)
    (hst : s.status = .completed ∨ s.status = .evaluating)
    (evalCall fbCall : Call AgentResponse) :
    (s.transcriptForEvaluation ≠ [] →
      ∀ m, (run_evaluation mgr sid evalCall fbCall).1 = .err m →
        ∃ s', ((run_evaluation mgr sid evalCall fbCall).2).get_session sid = some s' ∧
          s'.status = .completed) ∧
    (s.transcriptForEvaluation = [] →
      (run_evaluation mgr sid evalCall fbCall).1 = .err "No transcript data found" ∧
      ∃ s', ((run_evaluation mgr sid evalCall fbCall).2).get_session sid = some s' ∧
        s'.status = .evaluating) := by
  have hm1 : ((mgr.update_status sid .evaluating).2).get_session sid
      = some { s with status := .evaluating } :=
    update_status_get_session mgr sid s h .evaluating
  have htd : (((mgr.update_status sid .evaluating).2).get_transcript_for_evaluation sid).1
      = some s.transcriptForEvaluation := by
    unfold SessionManager.get_transcript_for_evaluation
    rw [hm1]
    rfl
  have hneg : ¬ (s.status ≠ .completed ∧ s.status ≠ .evaluating) :=
    fun hcon => hst.elim (fun he => hcon.1 he) (fun he => hcon.2 he)
  unfold run_evaluation
  rw [h]
  dsimp only
  rw [if_neg hneg, htd]
  dsimp only
  by_cases hE : s.transcriptForEvaluation = []
  · constructor
    · intro hne
      exact absurd hE hne
    · intro _
      rw [hE]
      simp only [List.isEmpty_nil]
      rw [if_pos trivial]
      exact ⟨rfl, _, hm1, rfl⟩
  · rw [if_neg (by simp [List.isEmpty_iff, hE])]
    refine ⟨?_, fun hE' => absurd hE' hE⟩
    intro _ m
    cases evalCall with
    | raises e =>
      intro _
      exact ⟨_, update_status_get_session _ sid _ hm1 .completed, rfl⟩
    | returns er =>
      dsimp only
      by_cases hs1 : er.status = "success"
      · rw [if_neg (by simp [hs1])]
        cases fbCall with
        | raises e =>
          intro _
          exact ⟨_, update_status_get_session _ sid _ hm1 .completed, rfl⟩
        | returns fr =>
          dsimp only
          by_cases hs2 : fr.status = "success"
          · rw [if_neg (by simp [hs2])]
            intro hok
            exact absurd hok (by simp)
          · rw [if_pos hs2]
            intro _
            exact ⟨_, update_status_get_session _ sid _ hm1 .completed, rfl⟩
      · rw [if_pos hs1]
        intro _
        exact ⟨_, update_status_get_session _ sid _ hm1 .completed, rfl⟩

/-- Witness for the amended C1: with a nonempty transcript and an evaluator
that raises, the status is reverted to `completed`. -/
theorem run_evaluation_error_reverts_witness :
    ∃ s', ((run_evaluation (sampleMgr .completed [sampleQuestion "1" "Q1"]
        [⟨"interviewer", "Q1", some "1", none⟩, ⟨"candidate", "a", none, none⟩]) "s1"
        (.raises "boom") (.returns ⟨"success", none⟩)).2).get_session "s1" = some s' ∧
      s'.status = .completed :=
  (run_evaluation_error_reverts
      (sampleMgr .completed [sampleQuestion "1" "Q1"]
        [⟨"interviewer", "Q1", some "1", none⟩, ⟨"candidate", "a", none, none⟩]) "s1"
      (sampleSession .completed [sampleQuestion "1" "Q1"]
        [⟨"interviewer", "Q1", some "1", none⟩, ⟨"candidate", "a", none, none⟩])
      rfl (Or.inl rfl) (.raises "boom") (.returns ⟨"success", none⟩)).1
    (by decide) "Pipeline error: boom" rfl

/-- C5: with a status that is neither `completed` nor `evaluating`,
`run_evaluation` returns a precondition error and leaves the whole store
unchanged (no status, phase, transcript or feedback change); and the
trigger-evaluation endpoint accepts a request exactly when the status is
`completed`, rejecting everything else before scheduling the pipeline. -/
theorem evaluation_requires_completed :
    (∀ mgr sid s evalCall fbCall, SessionManager.get_session mgr sid = some s →
      s.status ≠ .completed → s.status ≠ .evaluating →
      run_evaluation mgr sid evalCall fbCall
        = (.err ("Session is " ++ s.status.value ++ ", not completed"), mgr)) ∧
    (∀ mgr sid s, SessionManager.get_session mgr sid = some s →
      ((∃ p, evaluate_interview mgr sid = .ok p) ↔ s.status = .completed)) := by
  constructor
  · intro mgr sid s evalCall fbCall h h1 h2
    unfold run_evaluation
    rw [h]
    dsimp only
    rw [if_pos ⟨h1, h2⟩]
  · intro mgr sid s h
    unfold evaluate_interview
    rw [h]
    dsimp only
    by_cases hc : s.status = .completed
    · rw [if_neg (by simp [hc])]
      simp [hc]
    · rw [if_pos hc]
      simp [hc]

/-- Witness for C5: an `in_progress` session is rejected by the pipeline with
the store unchanged, and the endpoint accepts a `completed` session. -/
theorem evaluation_requires_completed_witness :
    run_evaluation (sampleMgr .in_progress [] []) "s1"
        (.returns ⟨"success", none⟩) (.returns ⟨"success", none⟩)
      = (.err "Session is in_progress, not completed", sampleMgr .in_progress [] []) ∧
    (∃ p, evaluate_interview (sampleMgr .completed [] []) "s1" = .ok p) :=
  ⟨evaluation_requires_completed.1 (sampleMgr .in_progress [] []) "s1"
      (sampleSession .in_progress [] []) (.returns ⟨"success", none⟩)
      (.returns ⟨"success", none⟩) rfl (by decide) (by decide),
   (evaluation_requires_completed.2 (sampleMgr .completed [] []) "s1"
      (sampleSession .completed [] []) rfl).mpr rfl⟩

end EvaluationPipeline

section EvaluatorAgent

/-- The externally determined outcome of one attempt of the
`EvaluatorAgent.evaluate` loop body (`evaluator_agent.py` lines 124-165):
a final response with text content, an explicit agent escalation, a stream
that ends without a final response, or a raised exception. -/
inductive AttemptOutcome where
  | finalText (raw : String)
  | escalate (msg : Option String)
  | noFinal
  | exn (e : String)
deriving DecidableEq, Repr

/-- Whether the attempt failed (everything except a final text response). -/
def AttemptOutcome.isFailure : AttemptOutcome → Bool
  | .finalText _ => false
  | _ => true

/-- The `last_error` string recorded for a failed attempt
(`evaluator_agent.py` lines 154, 158, 161). -/
def AttemptOutcome.failMessage : AttemptOutcome → String
  | .finalText _ => ""
  | .escalate msg => "Agent escalated: " ++ msg.getD "Unknown"
  | .noFinal => "No final response received"
  | .exn e => e

/-- A JSON object successfully parsed by `json.loads`; its content is opaque
to the claims. -/
structure ParsedJson where
  content : String
deriving DecidableEq, Repr

/-- `clean[clean.index(newline) + 1:]` — drop the characters through the first
newline; `none` models the `ValueError` raised when there is none. -/
def dropThroughNewline (s : String) : Option String :=
  match s.toList.findIdx? (fun c => c == '\n') with
  | none => none
  | some i => some (s.drop (i + 1))

/-- The code-fence unwrapping applied to the stripped model output before
`json.loads` (`evaluator_agent.py` lines 141-145); `none` models the
`ValueError` escape to the raw-text fallback. -/
def stripFence (raw : String) : Option String :=
  let clean := raw.trim
  if clean.startsWith "```" then
    match dropThroughNewline clean with
    | none => none
    | some c1 =>
      if c1.endsWith "```" then some ((c1.dropRight 3).trim)
      else some c1
  else some clean

/-- The dict returned by `EvaluatorAgent.evaluate`: a parsed JSON dict with
`status` set to `"success"`, the raw-text success fallback, or an error dict. -/
inductive EvalResult where
  | parsed (p : ParsedJson)
  | rawText (raw : String)
  | error (msg : String)
deriving DecidableEq, Repr

/-- Whether the returned dict has `status == "success"`. -/
def EvalResult.isSuccess : EvalResult → Bool
  | .parsed _ => true
  | .rawText _ => true
  | .error _ => false

/-- The inner `try`/`except (JSONDecodeError, ValueError)` around
`json.loads` (`evaluator_agent.py` lines 140-151): un-fence, parse, and fall
back to the raw-text success shape when either step fails. -/
def parseOrRaw (parse : String → Option ParsedJson) (raw : String) : EvalResult :=
  match stripFence raw with
  | some clean =>
    match parse clean with
    | some p => .parsed p
    | none => .rawText raw
  | none => .rawText raw

/-- The `for attempt in range(max_retries + 1)` loop of
`EvaluatorAgent.evaluate` (`evaluator_agent.py` lines 123-167). `outcomes k`
is the outcome of attempt `k`, `parse` models `json.loads`; the result is the
returned dict together with the number of attempts performed and the number of
`asyncio.sleep(2.0)` delays taken (the sleep runs only while `attempt <
max_retries`, i.e. between two attempts). -/
def evaluateLoop (outcomes : Nat → AttemptOutcome)
    (parse : String → Option ParsedJson) :
    Nat → Nat → Option String → EvalResult × Nat × Nat
  | _, 0, lastError => (.error ("Evaluation failed: " ++ lastError.getD "None"), 0, 0)
  | attempt, remaining + 1, _ =>
    match outcomes attempt with
    | .finalText raw => (parseOrRaw parse raw, 1, 0)
    | o =>
      if remaining = 0 then
        (.error ("Evaluation failed: " ++ o.failMessage), 1, 0)
      else
        let r := evaluateLoop outcomes parse (attempt + 1) remaining (some o.failMessage)
        (r.1, r.2.1 + 1, r.2.2 + 1)

/-- `EvaluatorAgent.evaluate` with `max_retries` (default 2 in the code). -/
def evaluate (outcomes : Nat → AttemptOutcome)
    (parse : String → Option ParsedJson) (maxRetries : Nat) :
    EvalResult × Nat × Nat :=
  evaluateLoop outcomes parse 0 (maxRetries + 1) none

theorem evaluateLoop_finalText (outs : Nat → AttemptOutcome)
    (parse : String → Option ParsedJson) (attempt remaining : Nat)
    (le : Option String) (raw : String) (h : outs attempt = .finalText raw) :
    evaluateLoop outs parse attempt (remaining + 1) le = (parseOrRaw parse raw, 1, 0) := by
  rw [evaluateLoop, h]

theorem evaluateLoop_fail (outs : Nat → AttemptOutcome)
    (parse : String → Option ParsedJson) (attempt r : Nat) (le : Option String)
    (h : (outs attempt).isFailure = true) :
    evaluateLoop outs parse attempt (r + 1) le =
      if r = 0 then
        (.error ("Evaluation failed: " ++ (outs attempt).failMessage), 1, 0)
      else
        ((evaluateLoop outs parse (attempt + 1) r (some (outs attempt).failMessage)).1,
         (evaluateLoop outs parse (attempt + 1) r (some (outs attempt).failMessage)).2.1 + 1,
         (evaluateLoop outs parse (attempt + 1) r (some (outs attempt).failMessage)).2.2 + 1) := by
  cases ho : outs attempt with
  | finalText raw => rw [ho] at h; simp [AttemptOutcome.isFailure] at h
  | escalate msg => rw [evaluateLoop, ho]
  | noFinal => rw [evaluateLoop, ho]
  | exn e => rw [evaluateLoop, ho]

theorem evaluateLoop_allFail (outs : Nat → AttemptOutcome)
    (parse : String → Option ParsedJson) :
    ∀ r attempt (le : Option String),
      (∀ k, attempt ≤ k → k ≤ attempt + r → (outs k).isFailure = true) →
      (evaluateLoop outs parse attempt (r + 1) le).1
        = .error ("Evaluation failed: " ++ (outs (attempt + r)).failMessage) ∧
      (evaluateLoop outs parse attempt (r + 1) le).2.1 = r + 1 ∧
      (evaluateLoop outs parse attempt (r + 1) le).2.2 = r := by
  intro r
  induction r with
  | zero =>
    intro attempt le hf
    rw [evaluateLoop_fail outs parse attempt 0 le (hf attempt (by omega) (by omega)),
      if_pos rfl]
    exact ⟨rfl, rfl, rfl⟩
  | succ r ih =>
    intro attempt le hf
    rw [evaluateLoop_fail outs parse attempt (r + 1) le (hf attempt (by omega) (by omega)),
      if_neg (by omega)]
    have := ih (attempt + 1) (some (outs attempt).failMessage)
      (fun k h1 h2 => hf k (by omega) (by omega))
    refine ⟨?_, ?_, ?_⟩
    · rw [this.1]
      have : attempt + 1 + r = attempt + (r + 1) := by omega
      rw [this]
    · rw [this.2.1]
    · rw [this.2.2]

theorem parseOrRaw_isSuccess (parse : String → Option ParsedJson) (raw : String) :
    (parseOrRaw parse raw).isSuccess = true := by
  unfold parseOrRaw
  cases stripFence raw with
  | none => rfl
  | some c =>
    dsimp only
    cases parse c <;> rfl

theorem parseOrRaw_some_some (parse : String → Option ParsedJson) (raw c : String)
    (p : ParsedJson) (hc : stripFence raw = some c) (hp : parse c = some p) :
    parseOrRaw parse raw = .parsed p := by
  unfold parseOrRaw
  rw [hc]
  dsimp only
  rw [hp]

theorem parseOrRaw_some_none (parse : String → Option ParsedJson) (raw c : String)
    (hc : stripFence raw = some c) (hp : parse c = none) :
    parseOrRaw parse raw = .rawText raw := by
  unfold parseOrRaw
  rw [hc]
  dsimp only
  rw [hp]

theorem parseOrRaw_none (parse : String → Option ParsedJson) (raw : String)
    (hc : stripFence raw = none) : parseOrRaw parse raw = .rawText raw := by
  unfold parseOrRaw
  rw [hc]

attribute [irreducible] parseOrRaw

/-- C6: the evaluator stage performs at most `max_retries + 1` attempts with
one fixed delay between consecutive attempts: failing twice then succeeding
with `max_retries = 2` yields a success after exactly 3 attempts and 2 delays;
if every attempt fails the stage returns an error result after exactly
`max_retries + 1` attempts; a successful final response is un-fenced before
JSON parsing, and a parse failure still yields a raw-text result whose status
is success. -/
theorem evaluator_retry_spec :
    (∀ outs (parse : String → Option ParsedJson) raw,
      (outs 0).isFailure = true → (outs 1).isFailure = true →
      outs 2 = .finalText raw →
      (evaluate outs parse 2).1.isSuccess = true ∧
      (evaluate outs parse 2).2.1 = 3 ∧ (evaluate outs parse 2).2.2 = 2) ∧
    (∀ outs (parse : String → Option ParsedJson) maxRetries,
      (∀ k, k ≤ maxRetries → (outs k).isFailure = true) →
      ∃ m, (evaluate outs parse maxRetries).1 = .error m ∧
        (evaluate outs parse maxRetries).2.1 = maxRetries + 1) ∧
    (∀ outs (parse : String → Option ParsedJson) maxRetries raw,
      outs 0 = .finalText raw →
      (evaluate outs parse maxRetries).1.isSuccess = true ∧
      (∀ c p, stripFence raw = some c → parse c = some p →
        (evaluate outs parse maxRetries).1 = .parsed p) ∧
      (∀ c, stripFence raw = some c → parse c = none →
        (evaluate outs parse maxRetries).1 = .rawText raw) ∧
      (stripFence raw = none →
        (evaluate outs parse maxRetries).1 = .rawText raw)) := by
  refine ⟨?_, ?_, ?_⟩
  · intro outs parse raw h0 h1 h2
    have heq : evaluate outs parse 2 = (parseOrRaw parse raw, 3, 2) := by
      rw [evaluate, evaluateLoop_fail outs parse 0 2 none h0, if_neg (by omega),
        evaluateLoop_fail outs parse 1 1 _ h1, if_neg (by omega),
        evaluateLoop_finalText outs parse 2 0 _ raw h2]
    rw [heq]
    exact ⟨parseOrRaw_isSuccess parse raw, rfl, rfl⟩
  · intro outs parse maxRetries hf
    rw [evaluate]
    have := evaluateLoop_allFail outs parse maxRetries 0 none
      (fun k h1 h2 => hf k (by omega))
    exact ⟨_, this.1, this.2.1⟩
  · intro outs parse maxRetries raw h0
    have heq : evaluate outs parse maxRetries = (parseOrRaw parse raw, 1, 0) :=
      evaluateLoop_finalText outs parse 0 maxRetries none raw h0
    rw [heq]
    refine ⟨parseOrRaw_isSuccess parse raw, ?_, ?_, ?_⟩
    · intro c p hc hp
      exact parseOrRaw_some_some parse raw c p hc hp
    · intro c hc hp
      exact parseOrRaw_some_none parse raw c hc hp
    · intro hc
      exact parseOrRaw_none parse raw hc

/-- Witness for C6: two exceptions then a final response, with a parse oracle
that always fails, yields a raw-text success after 3 attempts and 2 delays. -/
theorem evaluator_retry_spec_witness :
    (evaluate (fun k => if k = 2 then .finalText "ok" else .exn "boom")
        (fun _ => none) 2).1.isSuccess = true ∧
    (evaluate (fun k => if k = 2 then .finalText "ok" else .exn "boom")
        (fun _ => none) 2).2.1 = 3 ∧
    (evaluate (fun k => if k = 2 then .finalText "ok" else .exn "boom")
        (fun _ => none) 2).2.2 = 2 :=
  evaluator_retry_spec.1 (fun k => if k = 2 then .finalText "ok" else .exn "boom")
    (fun _ => none) "ok" rfl rfl rfl

end EvaluatorAgent

section SignalPhaseChange

/-- The dict returned by the `signal_phase_change` tool: `success` is always
present; the normal return carries `phase`, the invalid-phase return carries
`error` instead (`interview_ws.py` lines 54-62). -/
structure PhaseChangeResult where
  success : Bool
  phase : Option String
  error : Option String
deriving DecidableEq, Repr

/-- `signal_phase_change` tool bound to a session
(`interview_ws.py` lines 54-62): `InterviewPhase(phase)` raising `ValueError`
is the `none` case of `InterviewPhase.ofString`. -/
def signal_phase_change (mgr : SessionManager) (sid : String) (phase : String)
    (now : Nat) : PhaseChangeResult × SessionManager :=
  match InterviewPhase.ofString phase with
  | none => ({ success := false, phase := none,
               error := some ("Invalid phase: " ++ phase) }, mgr)
  | some p =>
    let r := mgr.update_phase sid p now
    ({ success := r.1, phase := some phase, error := none }, r.2)

/-- Counterexample to C7: `signal_phase_change("bogus")` does return
`success=false` and does not mutate the store, but the returned dict carries
an error message and no phase field — the claim's "together with the resulting
phase" does not hold on the invalid-phase branch. -/
theorem signal_phase_change_bogus_counterexample :
    (signal_phase_change (sampleMgr .created [] []) "s1" "bogus" 0).1.success = false ∧
    (signal_phase_change (sampleMgr .created [] []) "s1" "bogus" 0).2
      = sampleMgr .created [] [] ∧
    (signal_phase_change (sampleMgr .created [] []) "s1" "bogus" 0).1.phase = none ∧
    (signal_phase_change (sampleMgr .created [] []) "s1" "bogus" 0).1.error
      = some "Invalid phase: bogus" :=
  ⟨rfl, rfl, rfl, rfl⟩

/-- C7 (amended): for every string that is not one of the four phase names,
`signal_phase_change` returns `success=false` together with an error message
(and no phase field), and does not mutate the session store at all. -/
theorem signal_phase_change_invalid (mgr : SessionManager) (sid phase : String)
    (now : Nat) (h1 : phase ≠ "greeting") (h2 : phase ≠ "questions")
    (h3 : phase ≠ "closing") (h4 : phase ≠ "complete") :
    (signal_phase_change mgr sid phase now).1.success = false ∧
    (signal_phase_change mgr sid phase now).1.phase = none ∧
    (signal_phase_change mgr sid phase now).1.error
      = some ("Invalid phase: " ++ phase) ∧
    (signal_phase_change mgr sid phase now).2 = mgr := by
  have h : InterviewPhase.ofString phase = none := by
    unfold InterviewPhase.ofString
    split <;> simp_all
  unfold signal_phase_change
  rw [h]
  exact ⟨rfl, rfl, rfl, rfl⟩

/-- Witness for the amended C7 on a concrete store and phase string. -/
theorem signal_phase_change_invalid_witness :
    (signal_phase_change (sampleMgr .in_progress [] []) "s1" "bogus" 5).1.success
      = false ∧
    (signal_phase_change (sampleMgr .in_progress [] []) "s1" "bogus" 5).1.phase
      = none ∧
    (signal_phase_change (sampleMgr .in_progress [] []) "s1" "bogus" 5).1.error
      = some "Invalid phase: bogus" ∧
    (signal_phase_change (sampleMgr .in_progress [] []) "s1" "bogus" 5).2
      = sampleMgr .in_progress [] [] :=
  signal_phase_change_invalid (sampleMgr .in_progress [] []) "s1" "bogus" 5
    (by decide) (by decide) (by decide) (by decide)

end SignalPhaseChange

section TranscriptRelay

/-- A transcription fragment attached to a live event: its text and the
`finished` flag (`bool(...finished)` in the code). -/
structure Transcription where
  text : String
  finished : Bool
deriving DecidableEq, Repr

/-- A `run_live` event, restricted to the transcription payload that drives
transcript messages (`interview_ws.py` lines 204 and 219); audio chunks and
phase messages do not interact with the suppression flags. -/
structure LiveEvent where
  output_transcription : Option Transcription
  input_transcription : Option Transcription
deriving DecidableEq, Repr

/-- A `{"type": "transcript"}` websocket message. -/
structure TranscriptMsg where
  role : String
  text : String
  is_final : Bool
deriving DecidableEq, Repr

/-- The `output_done` / `input_done` suppression flags of
`forward_agent_responses` (`interview_ws.py` lines 187-188). -/
structure RelayFlags where
  output_done : Bool
  input_done : Bool
deriving DecidableEq, Repr

/-- Handling of `event.output_transcription`
(`interview_ws.py` lines 204-216): emit while `output_done` is unset; a final
fragment sets `output_done` and clears `input_done`. -/
def outStep : RelayFlags → Option Transcription → List TranscriptMsg × RelayFlags
  | s, none => ([], s)
  | s, some tr =>
    if tr.text ≠ "" ∧ s.output_done = false then
      ([⟨"agent", tr.text, tr.finished⟩],
       if tr.finished then ⟨true, false⟩ else s)
    else ([], s)

/-- Handling of `event.input_transcription`
(`interview_ws.py` lines 219-234): emit while `input_done` is unset; a final
fragment sets `input_done` and clears `output_done`. -/
def inStep : RelayFlags → Option Transcription → List TranscriptMsg × RelayFlags
  | s, none => ([], s)
  | s, some tr =>
    if tr.text ≠ "" ∧ s.input_done = false then
      ([⟨"user", tr.text, tr.finished⟩],
       if tr.finished then ⟨false, true⟩ else s)
    else ([], s)

/-- Transcript messages emitted for one event: output transcription first,
then input transcription, threading the flags. -/
def relayStep (s : RelayFlags) (e : LiveEvent) : List TranscriptMsg × RelayFlags :=
  ((outStep s e.output_transcription).1
     ++ (inStep (outStep s e.output_transcription).2 e.input_transcription).1,
   (inStep (outStep s e.output_transcription).2 e.input_transcription).2)

/-- Transcript messages emitted by the `forward_agent_responses` loop over the
processed event sequence (the loop may stop early on the COMPLETE phase; the
theorems quantify over whatever prefix was processed). -/
def relayRun (s : RelayFlags) : List LiveEvent → List TranscriptMsg
  | [] => []
  | e :: evs => (relayStep s e).1 ++ relayRun (relayStep s e).2 evs

/-- No message of role `r` occurs before the first final message of the other
role (the window in which role `r` is suppressed). -/
def lockedOk (r : String) : List TranscriptMsg → Bool
  | [] => true
  | m :: rest =>
    if m.role = r then false
    else if m.is_final then true
    else lockedOk r rest

/-- After every final message of some role, no message of that role recurs
before a final message of the other role. -/
def alternationOk : List TranscriptMsg → Bool
  | [] => true
  | m :: rest =>
    (if m.is_final then lockedOk m.role rest else true) && alternationOk rest

/-- Induction invariant: a set flag means the corresponding role stays
suppressed until the other role's final, and the whole emitted trace
alternates. -/
def RelayInv (s : RelayFlags) (evs : List LiveEvent) : Prop :=
  (s.output_done = true → lockedOk "agent" (relayRun s evs) = true) ∧
  (s.input_done = true → lockedOk "user" (relayRun s evs) = true) ∧
  alternationOk (relayRun s evs) = true

theorem relay_in_part (evs : List LiveEvent) (ih : ∀ s, RelayInv s evs)
    (s1 : RelayFlags) (ei : Option Transcription) :
    (s1.output_done = true →
      lockedOk "agent" ((inStep s1 ei).1 ++ relayRun (inStep s1 ei).2 evs) = true) ∧
    (s1.input_done = true →
      lockedOk "user" ((inStep s1 ei).1 ++ relayRun (inStep s1 ei).2 evs) = true) ∧
    alternationOk ((inStep s1 ei).1 ++ relayRun (inStep s1 ei).2 evs) = true := by
  cases ei with
  | none =>
    simpa only [inStep, List.nil_append] using ih s1
  | some tr =>
    by_cases hc : tr.text ≠ "" ∧ s1.input_done = false
    · rw [inStep, if_pos hc]
      cases hf : tr.finished with
      | false =>
        simp only [List.cons_append, List.nil_append]
        refine ⟨?_, ?_, ?_⟩
        · intro hod
          simp only [lockedOk, hf]
          rw [if_neg (by decide), if_neg (by decide)]
          exact (ih s1).1 hod
        · intro hid
          rw [hid] at hc
          exact absurd hc.2 (by decide)
        · simp only [alternationOk, hf, if_false, Bool.true_and]
          exact (ih s1).2.2
      | true =>
        simp only [List.cons_append, List.nil_append]
        refine ⟨?_, ?_, ?_⟩
        · intro _
          simp only [lockedOk, hf]
          rw [if_neg (by decide), if_pos trivial]
        · intro hid
          rw [hid] at hc
          exact absurd hc.2 (by decide)
        · simp only [alternationOk, hf, if_true]
          have h2 := ih ⟨false, true⟩
          rw [h2.2.1 rfl, h2.2.2]
          rfl
    · rw [inStep, if_neg hc]
      simpa only [List.nil_append] using ih s1

theorem relay_step_part (evs : List LiveEvent) (ih : ∀ s, RelayInv s evs)
    (s : RelayFlags) (e : LiveEvent) : RelayInv s (e :: evs) := by
  obtain ⟨eo, ei⟩ := e
  show (s.output_done = true → lockedOk "agent" (relayRun s (⟨eo, ei⟩ :: evs)) = true) ∧ _
  rw [relayRun]
  simp only [relayStep]
  cases eo with
  | none =>
    simpa only [outStep, List.nil_append] using relay_in_part evs ih s ei
  | some tr =>
    by_cases hc : tr.text ≠ "" ∧ s.output_done = false
    · rw [outStep, if_pos hc]
      cases hf : tr.finished with
      | false =>
        simp only [List.cons_append, List.nil_append]
        have hin := relay_in_part evs ih s ei
        refine ⟨?_, ?_, ?_⟩
        · intro hod
          rw [hod] at hc
          exact absurd hc.2 (by decide)
        · intro hid
          simp only [lockedOk, hf]
          rw [if_neg (by decide), if_neg (by decide)]
          exact hin.2.1 hid
        · simp only [alternationOk, hf, if_false, Bool.true_and]
          exact hin.2.2
      | true =>
        simp only [List.cons_append, List.nil_append]
        have hin := relay_in_part evs ih ⟨true, false⟩ ei
        refine ⟨?_, ?_, ?_⟩
        · intro hod
          rw [hod] at hc
          exact absurd hc.2 (by decide)
        · intro _
          simp only [lockedOk, hf]
          rw [if_neg (by decide), if_pos trivial]
        · simp only [alternationOk, hf, if_true]
          rw [hin.1 rfl, hin.2.2]
          rfl
    · rw [outStep, if_neg hc]
      simpa only [List.nil_append] using relay_in_part evs ih s ei

theorem relayRun_inv (evs : List LiveEvent) : ∀ s, RelayInv s evs := by
  induction evs with
  | nil =>
    intro s
    exact ⟨fun _ => rfl, fun _ => rfl, rfl⟩
  | cons e evs ih =>
    intro s
    exact relay_step_part evs ih s e

/-- C9: over any sequence of processed model events, the transcript messages
emitted by the relay alternate by role: after a final transcript message of
one role, no further transcript message (interim or final) of that role is
emitted before a final message of the other role — the per-role flag set by a
role's final fragment is reset only by the other role's final fragment, so the
model's confirmation re-send never duplicates a final for the same turn. -/
theorem transcript_alternation (evs : List LiveEvent) :
    alternationOk (relayRun ⟨false, false⟩ evs) = true :=
  (relayRun_inv evs ⟨false, false⟩).2.2

end TranscriptRelay

end JobLess
